import Mathlib

/-!
Verification of the QA plugin's fuzzy keyword-matching engine and of the
per-message scan in `on_all_message` (src/main.py), against the
natural-language specification.

Python strings are modelled as `List Char` (sequences of Unicode code
points).  The external tokenizer (`jieba.cut`) and the regular-expression
engine (`re.search`) are collaborators outside this repository, so they are
modelled as explicit function parameters:

* `segment : List Char → List (List Char)` stands for `jieba.cut`;
* `reSearch : List Char → List Char → Except Unit Bool` stands for
  `re.search pattern message`: `Except.error ()` models a raised
  `re.error` (invalid pattern), `Except.ok b` models a normal return
  where `b` says whether a match was found.
-/

namespace QAPlugin

/-- Helper: `listPre p s` is true when `p` is an initial segment of `s`
(the building block for Python's substring test `p in s`). -/
def listPre : List Char → List Char → Bool
  | [], _ => true
  | _ :: _, [] => false
  | a :: as, b :: bs => a = b && listPre as bs

/-- Python's substring containment `needle in hay`: true when `needle`
occurs contiguously somewhere in `hay` (the empty needle is contained in
everything, as in Python). -/
def substrOf (needle : List Char) : List Char → Bool
  | [] => listPre needle []
  | hay@(_ :: t) => listPre needle hay || substrOf needle t

/-- Source: `keyword.startswith("re:")` in `check_is_match`. -/
def startsWithRe : List Char → Bool
  | 'r' :: 'e' :: ':' :: _ => true
  | _ => false

/-- Source: strategy 2 of `check_is_match`.  If the keyword starts with
`"re:"`, the remainder is handed to the regex engine; a raised `re.error`
is swallowed (`except re.error: pass`), yielding false. -/
def regexStrategy (reSearch : List Char → List Char → Except Unit Bool)
    (keyword message : List Char) : Bool :=
  if startsWithRe keyword then
    match reSearch (keyword.drop 3) message with
    | Except.ok b => b
    | Except.error _ => false
  else false

/-- Source: `matched_count = sum(1 for word in keyword_words if word in
message_words)` — keyword tokens counted with multiplicity. -/
def matchedCount (segment : List Char → List (List Char))
    (keyword message : List Char) : Nat :=
  ((segment keyword).filter (fun w => decide (w ∈ segment message))).length

/-- Source: strategy 3 of `check_is_match` (token coverage after
segmentation).  At most 2 keyword tokens: all must occur among the message
tokens.  Otherwise: `matched_count / len(keyword_words) >= 0.7`; the float
comparison is modelled exactly by the cross-multiplied integer comparison
`7 * total ≤ 10 * matched`, which agrees with the double-precision
computation for all feasible token counts. -/
def tokenCoverage (segment : List Char → List (List Char))
    (keyword message : List Char) : Bool :=
  if (segment keyword).length ≤ 2 then
    (segment keyword).all (fun w => decide (w ∈ segment message))
  else
    decide (7 * (segment keyword).length ≤ 10 * matchedCount segment keyword message)

/-- Source: `important_words = ["地图", "攻略", "指南", "教程", "帮助", "说明"]`. -/
def important_words : List (List Char) :=
  [['地', '图'], ['攻', '略'], ['指', '南'], ['教', '程'], ['帮', '助'], ['说', '明']]

/-- Helper for `replaceAll`: fuel-indexed scan.  The fuel starts at the
length of the string, and every recursive call consumes at least one
character, so the fuel never runs out before the string does. -/
def replaceAllAux (w : List Char) : Nat → List Char → List Char
  | 0, s => s
  | _ + 1, [] => []
  | fuel + 1, c :: rest =>
    if !w.isEmpty && listPre w (c :: rest) then
      replaceAllAux w fuel (List.drop (w.length - 1) rest)
    else
      c :: replaceAllAux w fuel rest

/-- Python's `s.replace(w, "")`: every non-overlapping occurrence of `w`
is removed, scanning left to right (an empty `w` leaves `s` unchanged,
as `replace` with an empty replacement string does). -/
def replaceAll (w s : List Char) : List Char :=
  replaceAllAux w s.length s

/-- Source: `len(set(a) & set(b)) >= 1` in strategy 4 of `check_is_match`:
the set of distinct characters of `a` and of `b` intersect. -/
def hasCommonChar (a b : List Char) : Bool :=
  decide (1 ≤ (a.dedup.filter (fun c => decide (c ∈ b))).length)

/-- Source: strategy 4 of `check_is_match` (core-word heuristic).  For
each core word contained in both strings, all its occurrences are removed
from both (`str.replace(word, "")`) and the remainders must share at
least one character. -/
def coreWordCheck (keyword message : List Char) : Bool :=
  important_words.any (fun w =>
    substrOf w keyword && substrOf w message &&
      hasCommonChar (replaceAll w keyword) (replaceAll w message))

/-- Source: `check_is_match(keyword, message)` — the full five-step
decision procedure: empty guard, substring, regex, token coverage,
core-word heuristic, in that order, first success winning. -/
def check_is_match (segment : List Char → List (List Char))
    (reSearch : List Char → List Char → Except Unit Bool)
    (keyword message : List Char) : Bool :=
  if keyword = [] ∨ message = [] then false
  else if substrOf keyword message then true
  else if regexStrategy reSearch keyword message then true
  else if tokenCoverage segment keyword message then true
  else coreWordCheck keyword message

/-- Spec-side definition, following the spec's words for the
token-coverage numerator: `number of DISTINCT keyword tokens present in
message tokens` (the source counts with multiplicity instead). -/
def specDistinctPresent (segment : List Char → List (List Char))
    (keyword message : List Char) : Nat :=
  ((segment keyword).dedup.filter (fun w => decide (w ∈ segment message))).length

/-- Spec-side definition, following the spec's words for the core-word
strategy: `remove the FIRST textual occurrence of w` (the source removes
every occurrence via `str.replace`). -/
def removeFirstOcc (w : List Char) : List Char → List Char
  | [] => []
  | c :: rest =>
    if !w.isEmpty && listPre w (c :: rest) then
      List.drop (w.length - 1) rest
    else
      c :: removeFirstOcc w rest

/-- Concrete tokenizer instance: the whole string is one token. -/
def segId : List Char → List (List Char) := fun s => [s]

/-- Concrete tokenizer instance: every character is its own token (this
is also how `jieba` segments runs of out-of-vocabulary characters). -/
def segChar : List Char → List (List Char) := fun s => s.map (fun c => [c])

/-- Concrete regex-engine instance that never finds a match. -/
def reNone : List Char → List Char → Except Unit Bool := fun _ _ => Except.ok false

/-- Concrete regex-engine instance that always raises (models `re.search`
on an invalid pattern such as `"["`). -/
def reErrAll : List Char → List Char → Except Unit Bool := fun _ _ => Except.error ()

/-! Model of the per-message scan in `on_all_message` (src/main.py,
lines 290-320).  Only the group-chat path is modelled (the private-chat
early return is outside every claim).  The generator's `yield`s are
collected into a list of outputs, in order.  The group's keyword store
snapshot `get_qa_by_group(group_id)` (a dict iterated in insertion
order) is modelled as an association list. -/

/-- Content tag `'TEXT'` of a stored reply item. -/
def textTag : List Char := ['T', 'E', 'X', 'T']

/-- Content tag `'IMAGE_URL'` of a stored reply item. -/
def imageTag : List Char := ['I', 'M', 'A', 'G', 'E', '_', 'U', 'R', 'L']

/-- One stored reply item: a dict `{'type': ..., 'content': ...}`. -/
structure ReplyItem where
  type : List Char
  content : List Char
deriving DecidableEq

/-- A value stored under a keyword: either a Python list of reply items,
or some non-list value (the handler guards with `isinstance(reply, list)`). -/
inductive StoredVal
  | list (items : List ReplyItem)
  | nonList
deriving DecidableEq

/-- One output yielded by the handler: a plain-text result or an image
result. -/
inductive Output
  | plain (text : List Char)
  | image (path : List Char)
deriving DecidableEq

/-- Source: the inner loop `for item in reply: if item['type'] == 'TEXT':
yield ...; if item['type'] == 'IMAGE_URL': yield ...` for one item. -/
def itemOutputs (it : ReplyItem) : List Output :=
  (if it.type = textTag then [Output.plain it.content] else []) ++
    (if it.type = imageTag then [Output.image it.content] else [])

/-- Outputs of the item loop over a whole reply list, in list order. -/
def itemsOutputs : List ReplyItem → List Output
  | [] => []
  | it :: rest => itemOutputs it ++ itemsOutputs rest

/-- Source: `if isinstance(reply, list): for item in reply: ...` — a
non-list stored value yields nothing. -/
def replyOutputs : StoredVal → List Output
  | StoredVal.list items => itemsOutputs items
  | StoredVal.nonList => []

/-- Source: the keyword loop `for keyword in result: if
check_is_match(keyword, message): ...` over the group's keyword
snapshot, collecting every yielded output in order. -/
def scanReplies (segment : List Char → List (List Char))
    (reSearch : List Char → List Char → Except Unit Bool)
    (entries : List (List Char × StoredVal)) (message : List Char) : List Output :=
  match entries with
  | [] => []
  | e :: rest =>
    (if check_is_match segment reSearch e.1 message then replyOutputs e.2 else []) ++
      scanReplies segment reSearch rest message

/-- Source: the fixed invitation trigger string `"邀请码"` ("invitation
code"). -/
def inviteKeyword : List Char := ['邀', '请', '码']

/-- Source: the reply `"当前群未设置邀请码链接"` sent when no invitation URL
is configured for the group. -/
def noUrlMessage : List Char :=
  ['当', '前', '群', '未', '设', '置', '邀', '请', '码', '链', '接']

/-- Modelled from the spec: `get_invitation_url(group_id) -> optional
string` (the QAStore implementation `QA.py` is not under src/, so the
stored URL is an `Option (List Char)` parameter).  The handler's `if not
url` treats both an absent URL and an empty one as unset; `fetchCode`
stands for the external HTTP fetch `fetch_invitation_code`. -/
def invitationOutputs (fetchCode : List Char → List Char) :
    Option (List Char) → List Output
  | none => [Output.plain noUrlMessage]
  | some url =>
    if url = [] then [Output.plain noUrlMessage]
    else [Output.plain (fetchCode url)]

/-- Source: `message.startswith('/')` in `on_all_message`. -/
def startsWithSlash : List Char → Bool
  | '/' :: _ => true
  | _ => false

/-- Source: the group-chat body of `on_all_message`: command messages
(leading `'/'`) are ignored outright; otherwise the keyword scan runs,
followed by the invitation-code branch. -/
def on_all_message (segment : List Char → List (List Char))
    (reSearch : List Char → List Char → Except Unit Bool)
    (fetchCode : List Char → List Char)
    (entries : List (List Char × StoredVal)) (invUrl : Option (List Char))
    (message : List Char) : List Output :=
  if startsWithSlash message then []
  else
    scanReplies segment reSearch entries message ++
      (if check_is_match segment reSearch inviteKeyword message then
        invitationOutputs fetchCode invUrl
      else [])

/-- Concatenated replies of a list of store entries, in order (used to
state what the scan emits for the matching entries). -/
def repliesOf : List (List Char × StoredVal) → List Output
  | [] => []
  | e :: rest => replyOutputs e.2 ++ repliesOf rest

/-! Concrete inputs used by counterexamples and witnesses. -/

/-- Keyword `"aaa"`. -/
def kaaa : List Char := ['a', 'a', 'a']

/-- Message `"xa"`. -/
def mxa : List Char := ['x', 'a']

/-- Keyword `"abc"` (three tokens under `segChar`). -/
def kabc : List Char := ['a', 'b', 'c']

/-- Keyword `"ab"`. -/
def kab : List Char := ['a', 'b']

/-- Keyword `"bc"`. -/
def kbc : List Char := ['b', 'c']

/-- Message `"abc"`. -/
def mab : List Char := ['a', 'b', 'c']

/-- Message `"ba"`. -/
def mba : List Char := ['b', 'a']

/-- Keyword `"地图地图"` (the core word `"地图"` twice). -/
def k22 : List Char := ['地', '图', '地', '图']

/-- Message `"x地图y地图"`. -/
def m22 : List Char := ['x', '地', '图', 'y', '地', '图']

/-- Keyword `"地图Q"`. -/
def kcore : List Char := ['地', '图', 'Q']

/-- Message `"Q地图"`. -/
def mcore : List Char := ['Q', '地', '图']

/-- Keyword `"map"`. -/
def kmap : List Char := ['m', 'a', 'p']

/-- Message padding to the left of `kmap`. -/
def preMap : List Char := ['I', ' ']

/-- Message padding to the right of `kmap`. -/
def postMap : List Char := [' ', 'x']

/-- Message `"hello"`. -/
def mhello : List Char := ['h', 'e', 'l', 'l', 'o']

/-- Command message `"/abc"`. -/
def mslash : List Char := ['/', 'a', 'b', 'c']

/-- Keyword `"re:["` (an invalid regular expression after the prefix). -/
def kreBr : List Char := ['r', 'e', ':', '[']

/-- Stored reply: one text item `"A"`. -/
def va : StoredVal := StoredVal.list [⟨textTag, ['A']⟩]

/-- Stored reply: one text item `"B"`. -/
def vb : StoredVal := StoredVal.list [⟨textTag, ['B']⟩]

/-- Concrete fetcher instance: returns the URL itself. -/
def fid : List Char → List Char := fun u => u

/-- Concrete invitation URL `"u"`. -/
def urlu : List Char := ['u']

/-! Helper lemmas. -/

theorem listPre_self_append (a b : List Char) : listPre a (a ++ b) = true := by
  induction a with
  | nil => rfl
  | cons c as ih => simp [listPre, ih]

theorem substrOf_nil_left (s : List Char) : substrOf [] s = true := by
  cases s <;> simp [substrOf, listPre]

theorem substrOf_self_append (k post : List Char) : substrOf k (k ++ post) = true := by
  cases k with
  | nil => simpa using substrOf_nil_left post
  | cons c cs => simp [substrOf, listPre, listPre_self_append]

theorem substrOf_cons_of (k t : List Char) (c : Char) (h : substrOf k t = true) :
    substrOf k (c :: t) = true := by
  simp [substrOf, h]

theorem substrOf_of_decomp (pre k post : List Char) :
    substrOf k (pre ++ k ++ post) = true := by
  induction pre with
  | nil => simpa using substrOf_self_append k post
  | cons c cs ih => simpa using substrOf_cons_of _ _ c (by simpa using ih)

theorem hasCommonChar_iff (a b : List Char) :
    hasCommonChar a b = true ↔ ∃ c ∈ a, c ∈ b := by
  unfold hasCommonChar
  rw [decide_eq_true_eq]
  constructor
  · intro h
    obtain ⟨c, hc⟩ := List.exists_mem_of_length_pos h
    rw [List.mem_filter] at hc
    exact ⟨c, List.mem_dedup.mp hc.1, of_decide_eq_true hc.2⟩
  · rintro ⟨c, hca, hcb⟩
    exact List.length_pos_of_mem
      (List.mem_filter.mpr ⟨List.mem_dedup.mpr hca, decide_eq_true hcb⟩)

theorem check_eq_coreWord (segment : List Char → List (List Char))
    (reSearch : List Char → List Char → Except Unit Bool) (k m : List Char)
    (h1 : k ≠ []) (h2 : m ≠ []) (h3 : substrOf k m = false)
    (h4 : regexStrategy reSearch k m = false)
    (h5 : tokenCoverage segment k m = false) :
    check_is_match segment reSearch k m = coreWordCheck k m := by
  simp [check_is_match, h1, h2, h3, h4, h5]

theorem itemsOutputs_eq_filter_map (items : List ReplyItem) :
    itemsOutputs items =
      (items.filter (fun it => decide (it.type = textTag) || decide (it.type = imageTag))).map
        (fun it => if it.type = textTag then Output.plain it.content
          else Output.image it.content) := by
  have hne : ¬ textTag = imageTag := by decide
  have hne' : ¬ imageTag = textTag := by decide
  induction items with
  | nil => rfl
  | cons it rest ih =>
    by_cases h1 : it.type = textTag
    · have h2 : ¬ it.type = imageTag := by rw [h1]; decide
      simp [itemsOutputs, itemOutputs, List.filter_cons, h1, h2, hne, ih]
    · by_cases h2 : it.type = imageTag
      · simp [itemsOutputs, itemOutputs, List.filter_cons, h1, h2, hne', ih]
      · simp [itemsOutputs, itemOutputs, List.filter_cons, h1, h2, ih]

/-! Claim theorems. -/

/-- C1 (counterexample): the claim's token-coverage ratio counts DISTINCT
keyword tokens, but the source counts keyword tokens with multiplicity
(`sum(1 for word in keyword_words ...)`).  With the keyword `"aaa"`
segmenting into three identical tokens and the message `"xa"` (earlier
strategies all failing), the strategy returns true while the distinct
ratio is 1/3 < 0.7, refuting the claimed equivalence. -/
theorem tokenCoverage_distinct_ratio_cex :
    ¬ ((kaaa ≠ [] ∧ mxa ≠ [] ∧ substrOf kaaa mxa = false ∧
          regexStrategy reNone kaaa mxa = false ∧ 3 ≤ (segChar kaaa).length) →
        (tokenCoverage segChar kaaa mxa = true ↔
          (7 : ℚ) / 10 ≤ (specDistinctPresent segChar kaaa mxa : ℚ) /
            ((segChar kaaa).length : ℚ))) := by
  intro h
  have hiff := h ⟨by decide, by decide, by decide, by decide, by decide⟩
  have hr := hiff.mp (by decide)
  rw [show specDistinctPresent segChar kaaa mxa = 1 from by decide,
    show (segChar kaaa).length = 3 from by decide] at hr
  norm_num at hr

/-- C1 (amended): for every keyword whose segmentation has 3 or more
tokens, the token-coverage strategy returns true if and only if (number
of keyword tokens, counted with multiplicity, that are present among the
message's tokens) / (total keyword token count) >= 0.70, threshold
inclusive. -/
theorem tokenCoverage_ratio_multiplicity (segment : List Char → List (List Char))
    (k m : List Char) (h : 3 ≤ (segment k).length) :
    tokenCoverage segment k m = true ↔
      (7 : ℚ) / 10 ≤ (matchedCount segment k m : ℚ) / ((segment k).length : ℚ) := by
  have hlen : ¬ (segment k).length ≤ 2 := by omega
  have hpos : (0 : ℚ) < ((segment k).length : ℚ) := by
    have h0 : 0 < (segment k).length := by omega
    exact_mod_cast h0
  unfold tokenCoverage
  rw [if_neg hlen, decide_eq_true_eq,
    div_le_div_iff₀ (by norm_num : (0 : ℚ) < 10) hpos]
  constructor
  · intro hh
    have hq : (7 : ℚ) * ((segment k).length : ℚ) ≤
        10 * (matchedCount segment k m : ℚ) := by exact_mod_cast hh
    linarith
  · intro hh
    have hq : (7 : ℚ) * ((segment k).length : ℚ) ≤
        10 * (matchedCount segment k m : ℚ) := by linarith
    exact_mod_cast hq

/-- C1 (witness): the amended theorem applied at a keyword with three
distinct tokens. -/
theorem tokenCoverage_ratio_multiplicity_witness :
    3 ≤ (segChar kabc).length ∧
      (tokenCoverage segChar kabc mxa = true ↔
        (7 : ℚ) / 10 ≤ (matchedCount segChar kabc mxa : ℚ) /
          ((segChar kabc).length : ℚ)) :=
  ⟨by decide, tokenCoverage_ratio_multiplicity segChar kabc mxa (by decide)⟩

/-- C2 (counterexample): the claim removes only the FIRST occurrence of
the core word, but the source's `str.replace(word, "")` removes every
occurrence.  For the keyword `"地图地图"` and the message `"x地图y地图"`
(strategies 1-4 all failing), the remove-first reading leaves `"地图"`
and `"xy地图"`, which share the character `'地'`, so the claim demands
true — but `check_is_match` removes all occurrences, leaving `""` and
`"xy"` with no common character, and returns false. -/
theorem coreWord_firstOcc_cex :
    ¬ ((k22 ≠ [] ∧ m22 ≠ [] ∧ substrOf k22 m22 = false ∧
          regexStrategy reNone k22 m22 = false ∧ tokenCoverage segId k22 m22 = false) →
        (check_is_match segId reNone k22 m22 = true ↔
          ∃ w ∈ important_words, substrOf w k22 = true ∧ substrOf w m22 = true ∧
            ∃ c ∈ removeFirstOcc w k22, c ∈ removeFirstOcc w m22)) := by
  decide

/-- C2 (amended): for every keyword and message that both contain some
core word (and for which strategies 1-4 did not succeed), the core-word
strategy removes EVERY occurrence of the core word from each string, and
`is_match` returns true if and only if, for some core word, the
remainders share at least one character. -/
theorem coreWord_replaceAll_iff (segment : List Char → List (List Char))
    (reSearch : List Char → List Char → Except Unit Bool) (k m : List Char)
    (h1 : k ≠ []) (h2 : m ≠ []) (h3 : substrOf k m = false)
    (h4 : regexStrategy reSearch k m = false)
    (h5 : tokenCoverage segment k m = false) :
    check_is_match segment reSearch k m = true ↔
      ∃ w ∈ important_words, substrOf w k = true ∧ substrOf w m = true ∧
        ∃ c ∈ replaceAll w k, c ∈ replaceAll w m := by
  rw [check_eq_coreWord segment reSearch k m h1 h2 h3 h4 h5]
  unfold coreWordCheck
  rw [List.any_eq_true]
  constructor
  · rintro ⟨w, hw, hp⟩
    rw [Bool.and_eq_true, Bool.and_eq_true] at hp
    obtain ⟨⟨hwk, hwm⟩, hcc⟩ := hp
    obtain ⟨c, hc1, hc2⟩ := (hasCommonChar_iff _ _).mp hcc
    exact ⟨w, hw, hwk, hwm, c, hc1, hc2⟩
  · rintro ⟨w, hw, hwk, hwm, c, hc1, hc2⟩
    refine ⟨w, hw, ?_⟩
    rw [Bool.and_eq_true, Bool.and_eq_true]
    exact ⟨⟨hwk, hwm⟩, (hasCommonChar_iff _ _).mpr ⟨c, hc1, hc2⟩⟩

/-- C2 (witness): the amended theorem applied at the keyword `"地图Q"`
and the message `"Q地图"`, which share the core word `"地图"` and the
character `'Q'` outside it. -/
theorem coreWord_replaceAll_iff_witness :
    (kcore ≠ [] ∧ mcore ≠ [] ∧ substrOf kcore mcore = false ∧
        regexStrategy reNone kcore mcore = false ∧
        tokenCoverage segId kcore mcore = false) ∧
      (check_is_match segId reNone kcore mcore = true ↔
        ∃ w ∈ important_words, substrOf w kcore = true ∧ substrOf w mcore = true ∧
          ∃ c ∈ replaceAll w kcore, c ∈ replaceAll w mcore) :=
  ⟨⟨by decide, by decide, by decide, by decide, by decide⟩,
    coreWord_replaceAll_iff segId reNone kcore mcore
      (by decide) (by decide) (by decide) (by decide) (by decide)⟩

/-- C3 (counterexample): the claim says only the FIRST matching keyword
yields its stored reply, but the source's keyword loop has no break:
with `"ab"` and `"bc"` both registered and both matching the message
`"abc"`, the scan emits the replies of both keywords, the later one
included. -/
theorem scan_first_only_cex :
    check_is_match segId reNone kab mab = true ∧
      check_is_match segId reNone kbc mab = true ∧
      scanReplies segId reNone [(kab, va), (kbc, vb)] mab =
        [Output.plain ['A'], Output.plain ['B']] ∧
      Output.plain ['B'] ∉ replyOutputs va := by
  decide

/-- C3 (amended): for every inbound non-command group message, EVERY
registered keyword of the group that matches the message yields its
stored reply, in enumeration order of the group's keyword set: the scan
output is the concatenation of the replies of exactly the matching
entries. -/
theorem scanReplies_all_matching (segment : List Char → List (List Char))
    (reSearch : List Char → List Char → Except Unit Bool)
    (entries : List (List Char × StoredVal)) (m : List Char) :
    scanReplies segment reSearch entries m =
      repliesOf (entries.filter (fun e => check_is_match segment reSearch e.1 m)) := by
  induction entries with
  | nil => rfl
  | cons e rest ih =>
    cases hc : check_is_match segment reSearch e.1 m
    · simp [scanReplies, List.filter_cons, hc, ih]
    · simp [scanReplies, List.filter_cons, hc, ih, repliesOf]

/-- C4: for every non-command group message, the invitation branch is
guarded by `check_is_match` on the fixed trigger `"邀请码"` ("invitation
code"): when the trigger does not match, the handler output is
independent of the stored invitation URL (it is never read); when it
matches, the output is the keyword-scan output followed by the
invitation outputs computed from the group's configured URL. -/
theorem on_all_message_invitation_trigger (segment : List Char → List (List Char))
    (reSearch : List Char → List Char → Except Unit Bool)
    (fetchCode : List Char → List Char)
    (entries : List (List Char × StoredVal)) (m : List Char)
    (hcmd : startsWithSlash m = false) :
    (check_is_match segment reSearch inviteKeyword m = false →
      ∀ u v : Option (List Char),
        on_all_message segment reSearch fetchCode entries u m =
          on_all_message segment reSearch fetchCode entries v m) ∧
    (check_is_match segment reSearch inviteKeyword m = true →
      ∀ u : Option (List Char),
        on_all_message segment reSearch fetchCode entries u m =
          scanReplies segment reSearch entries m ++ invitationOutputs fetchCode u) := by
  constructor
  · intro hno u v
    simp [on_all_message, hcmd, hno]
  · intro hyes u
    simp [on_all_message, hcmd, hyes]

/-- C4 (witness): the theorem applied at the message `"hello"`, which
does not match the invitation trigger; the handler output is the same
with no URL configured and with the URL `"u"`. -/
theorem on_all_message_invitation_trigger_witness :
    startsWithSlash mhello = false ∧
      check_is_match segId reNone inviteKeyword mhello = false ∧
      on_all_message segId reNone fid [(kab, va)] none mhello =
        on_all_message segId reNone fid [(kab, va)] (some urlu) mhello :=
  ⟨by decide, by decide,
    (on_all_message_invitation_trigger segId reNone fid [(kab, va)] mhello
      (by decide)).1 (by decide) none (some urlu)⟩

/-- C5: an invalid regular expression after the `"re:"` prefix (modelled
by the regex engine returning `Except.error`) makes the regex strategy
yield false without any fault, and `check_is_match` behaves exactly as
with a regex engine that finds no match, falling through to the later
strategies. -/
theorem check_regex_error_fallthrough (segment : List Char → List (List Char))
    (reSearch : List Char → List Char → Except Unit Bool) (k m : List Char)
    (hpre : startsWithRe k = true)
    (herr : reSearch (k.drop 3) m = Except.error ()) :
    regexStrategy reSearch k m = false ∧
      check_is_match segment reSearch k m =
        check_is_match segment (fun _ _ => Except.ok false) k m := by
  have hreg : regexStrategy reSearch k m = false := by
    simp [regexStrategy, hpre, herr]
  have hreg2 : regexStrategy (fun _ _ => Except.ok false) k m = false := by
    simp [regexStrategy, hpre]
  exact ⟨hreg, by simp [check_is_match, hreg, hreg2]⟩

/-- C5 (witness): the theorem applied at `is_match("re:[", "abc")` with
an always-raising regex engine; the result evaluates to false. -/
theorem check_regex_error_fallthrough_witness :
    startsWithRe kreBr = true ∧
      reErrAll (kreBr.drop 3) mab = Except.error () ∧
      (regexStrategy reErrAll kreBr mab = false ∧
        check_is_match segId reErrAll kreBr mab =
          check_is_match segId (fun _ _ => Except.ok false) kreBr mab) ∧
      check_is_match segId reErrAll kreBr mab = false :=
  ⟨by decide, rfl,
    check_regex_error_fallthrough segId reErrAll kreBr mab (by decide) rfl,
    by decide⟩

/-- C6: for every non-empty keyword occurring as a literal contiguous
substring of the message (message = pre ++ keyword ++ post),
`check_is_match` returns true, for every tokenizer and regex engine. -/
theorem check_is_match_of_substring (segment : List Char → List (List Char))
    (reSearch : List Char → List Char → Except Unit Bool)
    (k pre post : List Char) (hk : k ≠ []) :
    check_is_match segment reSearch k (pre ++ k ++ post) = true := by
  have hsub : substrOf k (pre ++ (k ++ post)) = true := by
    rw [← List.append_assoc]
    exact substrOf_of_decomp pre k post
  have hm : pre ++ (k ++ post) ≠ [] := by
    intro h
    rw [List.append_eq_nil, List.append_eq_nil] at h
    exact hk h.2.1
  simp [check_is_match, hk, hm, hsub]

/-- C6 (witness): `is_match("map", "I map x")` is true by the substring
strategy. -/
theorem check_is_match_of_substring_witness :
    kmap ≠ [] ∧ check_is_match segId reNone kmap (preMap ++ kmap ++ postMap) = true :=
  ⟨by decide, check_is_match_of_substring segId reNone kmap preMap postMap (by decide)⟩

/-- C7: for every keyword whose segmentation has at most 2 tokens, the
token-coverage strategy returns true only if every keyword token appears
among the message's tokens. -/
theorem tokenCoverage_small_requires_all (segment : List Char → List (List Char))
    (k m : List Char) (h : (segment k).length ≤ 2)
    (ht : tokenCoverage segment k m = true) :
    ∀ w ∈ segment k, w ∈ segment m := by
  intro w hw
  unfold tokenCoverage at ht
  rw [if_pos h, List.all_eq_true] at ht
  simpa using ht w hw

/-- C7 (witness): the theorem applied at a two-token keyword fully
covered by the message. -/
theorem tokenCoverage_small_requires_all_witness :
    (segChar kab).length ≤ 2 ∧ tokenCoverage segChar kab mba = true ∧
      ∀ w ∈ segChar kab, w ∈ segChar mba :=
  ⟨by decide, by decide,
    tokenCoverage_small_requires_all segChar kab mba (by decide) (by decide)⟩

/-- C8: an empty keyword or an empty message makes `check_is_match`
return false, for every tokenizer, regex engine and other argument. -/
theorem check_is_match_empty_false (segment : List Char → List (List Char))
    (reSearch : List Char → List Char → Except Unit Bool) (s : List Char) :
    check_is_match segment reSearch [] s = false ∧
      check_is_match segment reSearch s [] = false := by
  constructor
  · simp [check_is_match]
  · simp [check_is_match]

/-- C9: a group message starting with `'/'` produces no output at all:
for every keyword store snapshot and every invitation-URL configuration,
the handler yields nothing. -/
theorem on_all_message_command_ignored (segment : List Char → List (List Char))
    (reSearch : List Char → List Char → Except Unit Bool)
    (fetchCode : List Char → List Char) (m : List Char)
    (h : startsWithSlash m = true) :
    ∀ (entries : List (List Char × StoredVal)) (invUrl : Option (List Char)),
      on_all_message segment reSearch fetchCode entries invUrl m = [] := by
  intro entries invUrl
  simp [on_all_message, h]

/-- C9 (witness): the theorem applied at the command message `"/abc"`,
with a registered keyword (`"abc"`) that would match it if the scan ran,
and a configured invitation URL. -/
theorem on_all_message_command_ignored_witness :
    startsWithSlash mslash = true ∧
      on_all_message segId reNone fid [(kabc, va)] (some urlu) mslash = [] :=
  ⟨by decide,
    on_all_message_command_ignored segId reNone fid mslash (by decide)
      [(kabc, va)] (some urlu)⟩

/-- C10: a stored reply value that is not a list produces no output, and
a list reply produces exactly the TEXT and IMAGE_URL items, in list
order, all other items being skipped. -/
theorem replyOutputs_filtering (items : List ReplyItem) :
    replyOutputs StoredVal.nonList = [] ∧
      replyOutputs (StoredVal.list items) =
        (items.filter (fun it =>
            decide (it.type = textTag) || decide (it.type = imageTag))).map
          (fun it => if it.type = textTag then Output.plain it.content
            else Output.image it.content) :=
  ⟨rfl, itemsOutputs_eq_filter_map items⟩

end QAPlugin
